import Mathlib

/-
Verification of the staking program (programs/staking_build/src/lib.rs and
src/ex.rs, two near-identical copies of the same handlers).

Shallow embedding: u64 values are modelled as Nat together with explicit
2 ^ 64 bounds inside the checked arithmetic helpers, exactly mirroring the
Rust checked_add / checked_sub / checked_mul semantics.  Account state
(StakePool, StakeEntry) is modelled literally; the external CPI calls
(reward mint, lamport transfer) are modelled by boolean oracles saying
whether the external call succeeds, and a handler that fails returns the
state it had written so far (none of the handlers writes any field before
its last fallible step, which the theorems below make precise).
-/

namespace Staking

/-- Rust u64 checked_add: some (a + b) unless the sum leaves the u64 range. -/
def checked_add (a b : Nat) : Option Nat :=
  if a + b < 2 ^ 64 then some (a + b) else none

/-- Rust u64 checked_sub: none on underflow. -/
def checked_sub (a b : Nat) : Option Nat :=
  if b ≤ a then some (a - b) else none

/-- Rust u64 checked_mul: some (a * b) unless the product leaves the u64 range. -/
def checked_mul (a b : Nat) : Option Nat :=
  if a * b < 2 ^ 64 then some (a * b) else none

/-- The accrual helper, translated line by line from calculate_rewards
(lib.rs lines 165-184, ex.rs lines 211-239).  Option.getD models the
unwrap_or(0) calls of the source. -/
def calculate_rewards (staked_amount last_staked_at reward_rate_per_sec current_time : Nat) :
    Nat × Nat :=
  if staked_amount = 0 ∨ current_time ≤ last_staked_at then
    (0, current_time)
  else
    let time_elapsed := (checked_sub current_time last_staked_at).getD 0
    let total_reward :=
      (checked_mul ((checked_mul staked_amount time_elapsed).getD 0) reward_rate_per_sec).getD 0
    (total_reward, current_time)

deriving instance DecidableEq for Except

/-- Typed failures of the handlers.  noStakedBalance and insufficientLamports
are the ErrorCode variants the handlers can raise; mintFailed and
transferFailed stand for a propagated failure of the external mint CPI or
lamport transfer; addOverflowPanic is the abort caused by
checked_add(..).unwrap() on overflow in stake_sol. -/
inductive Err where
  | noStakedBalance
  | insufficientLamports
  | mintFailed
  | transferFailed
  | addOverflowPanic
deriving DecidableEq, Repr

/-- The StakePool account.  Pubkeys are modelled as Nat identities. -/
structure StakePool where
  authority : Nat
  reward_mint : Nat
  reward_vault : Nat
  reward_rate_per_sec : Nat
deriving DecidableEq, Repr

/-- The StakeEntry account (the per-participant Position). -/
structure StakeEntry where
  user_wallet : Nat
  staked_amount : Nat
  last_staked_at : Nat
deriving DecidableEq, Repr

/-- The accounts a handler can write: the pool and the stake entry of the
calling user.  A handler returns its result together with the state as
committed on exit (on failure, the chain commits nothing, and indeed no
handler has written any field before its last fallible step). -/
structure ProgState where
  pool : StakePool
  entry : StakeEntry
deriving DecidableEq, Repr

/-- stake_sol (lib.rs lines 25-75, ex.rs lines 35-97): settle pending
rewards on the pre-deposit balance, mint them if positive, transfer the
deposit, then write staked_amount, last_staked_at and user_wallet.
mintOk and transferOk are oracles for the two external calls. -/
def stake_sol (s : ProgState) (user amount now : Nat) (mintOk transferOk : Bool) :
    Except Err Nat × ProgState :=
  let e := s.entry
  let res := calculate_rewards e.staked_amount e.last_staked_at s.pool.reward_rate_per_sec now
  let pending_rewards := res.1
  let new_last_staked := res.2
  if 0 < pending_rewards ∧ mintOk = false then
    (Except.error Err.mintFailed, s)
  else if transferOk = false then
    (Except.error Err.transferFailed, s)
  else
    match checked_add e.staked_amount amount with
    | none => (Except.error Err.addOverflowPanic, s)
    | some total =>
        (Except.ok pending_rewards,
          { s with entry :=
            { user_wallet := user, staked_amount := total, last_staked_at := new_last_staked } })

/-- claim_rewards (lib.rs lines 77-119, ex.rs lines 100-147): require a
positive staked balance, settle, return early when nothing is pending
(without touching the entry), otherwise mint and write last_staked_at.
The ok value is the amount of reward actually issued. -/
def claim_rewards (s : ProgState) (now : Nat) (mintOk : Bool) :
    Except Err Nat × ProgState :=
  let e := s.entry
  if e.staked_amount = 0 then
    (Except.error Err.noStakedBalance, s)
  else
    let res := calculate_rewards e.staked_amount e.last_staked_at s.pool.reward_rate_per_sec now
    let pending_rewards := res.1
    let new_last_staked := res.2
    if pending_rewards = 0 then
      (Except.ok 0, s)
    else if mintOk = false then
      (Except.error Err.mintFailed, s)
    else
      (Except.ok pending_rewards,
        { s with entry := { e with last_staked_at := new_last_staked } })

/-- unstake_sol (lib.rs lines 121-162, ex.rs lines 150-205): require a
positive staked balance, check the entry account holds enough lamports,
transfer the whole staked amount back, then zero staked_amount and set
last_staked_at to now.  entryLamports is the lamport balance of the entry
account, transferOk the oracle for the transfer.  The ok value is the
amount returned to the user. -/
def unstake_sol (s : ProgState) (entryLamports now : Nat) (transferOk : Bool) :
    Except Err Nat × ProgState :=
  let e := s.entry
  if e.staked_amount = 0 then
    (Except.error Err.noStakedBalance, s)
  else
    let amount_to_unstake := e.staked_amount
    if entryLamports < amount_to_unstake then
      (Except.error Err.insufficientLamports, s)
    else if transferOk = false then
      (Except.error Err.transferFailed, s)
    else
      (Except.ok amount_to_unstake,
        { s with entry := { e with staked_amount := 0, last_staked_at := now } })

/-- Reference accrual function written from the words of the spec (section
4.1): zero reward and checkpoint advanced when nothing is staked or the
clock did not advance, otherwise the full product staked x elapsed x rate.
Used only to compare calculate_rewards against the spec. -/
def settle_spec (staked_amount last_checkpoint rate now : Nat) : Nat × Nat :=
  if staked_amount = 0 ∨ now ≤ last_checkpoint then
    (0, now)
  else
    (staked_amount * (now - last_checkpoint) * rate, now)

/-- The accrual helper always returns the supplied time as the new checkpoint. -/
theorem calculate_rewards_snd (a b r n : Nat) : (calculate_rewards a b r n).2 = n := by
  unfold calculate_rewards
  split <;> rfl

/-- An in-range checked multiplication yields the product after unwrap_or 0. -/
theorem checked_mul_getD_of_lt (a b : Nat) (h : a * b < 2 ^ 64) :
    (checked_mul a b).getD 0 = a * b := by
  unfold checked_mul
  rw [if_pos h]
  rfl

/-- A checked subtraction with no underflow yields the difference after unwrap_or 0. -/
theorem checked_sub_getD_of_le (a b : Nat) (h : b ≤ a) :
    (checked_sub a b).getD 0 = a - b := by
  unfold checked_sub
  rw [if_pos h]
  rfl

/-- C1: at staked_amount equal to the u64 maximum, last checkpoint 0, rate 2
and now 2, the accrual multiplication overflows and calculate_rewards
returns a zero reward with no failure: the unwrap_or(0) calls silently
truncate the reward to 0 instead of failing with an Overflow error as the
spec requires (the ErrorCode enum does not even contain an Overflow
variant). -/
theorem calculate_rewards_overflow_silently_zeroes :
    calculate_rewards (2 ^ 64 - 1) 0 2 2 = (0, 2) := by decide

/-- C3: wherever the full product staked x elapsed x rate fits in u64,
calculate_rewards agrees with the reference accrual function written from
the spec: zero branches return (0, now) with the checkpoint advanced, and
the positive branch returns the product.  As a Lean function it is total,
pure and deterministic by construction, matching the source, whose
unwrap_or(0) calls make it total as well. -/
theorem calculate_rewards_eq_settle_spec (a b r n : Nat)
    (h : a * (n - b) * r < 2 ^ 64) :
    calculate_rewards a b r n = settle_spec a b r n := by
  unfold calculate_rewards settle_spec
  split
  · rfl
  next hcond =>
    push_neg at hcond
    have hb : b ≤ n := Nat.le_of_lt hcond.2
    dsimp only
    rw [checked_sub_getD_of_le n b hb]
    rcases Nat.eq_zero_or_pos r with hr | hr
    · subst hr
      rcases Nat.lt_or_ge (a * (n - b)) (2 ^ 64) with hm | hm
      · rw [checked_mul_getD_of_lt a (n - b) hm]
        rw [checked_mul_getD_of_lt (a * (n - b)) 0 (by positivity)]
      · unfold checked_mul
        rw [if_neg (Nat.not_lt.mpr hm)]
        simp
    · have h1 : a * (n - b) ≤ a * (n - b) * r :=
        le_mul_of_one_le_right (Nat.zero_le _) hr
      have h2 : a * (n - b) < 2 ^ 64 := Nat.lt_of_le_of_lt h1 h
      rw [checked_mul_getD_of_lt a (n - b) h2, checked_mul_getD_of_lt (a * (n - b)) r h]

/-- C3 witness: a concrete in-range instance of the refinement theorem. -/
theorem calculate_rewards_eq_settle_spec_at_100 :
    100 * (10 - 0) * 3 < 2 ^ 64 ∧ calculate_rewards 100 0 3 10 = settle_spec 100 0 3 10 :=
  ⟨by norm_num, calculate_rewards_eq_settle_spec 100 0 3 10 (by norm_num)⟩

/-- C2 counterexample: a Position with staked_amount 5, last checkpoint 10,
pool rate 0, claimed at now 20.  The settled reward is 0, the call succeeds
as a no-op, but last_staked_at stays 10: the early return of claim_rewards
skips the checkpoint write, so the checkpoint is NOT advanced to now as the
claim states. -/
theorem claim_zero_reward_keeps_old_checkpoint :
    (claim_rewards ⟨⟨0, 1, 2, 0⟩, ⟨7, 5, 10⟩⟩ 20 true).1 = Except.ok 0 ∧
    (claim_rewards ⟨⟨0, 1, 2, 0⟩, ⟨7, 5, 10⟩⟩ 20 true).2.entry.last_staked_at ≠ 20 := by
  exact ⟨rfl, by decide⟩

/-- C2 amended: on a Position with positive staked_amount whose settled
reward is 0, claim_rewards succeeds as a no-op that issues no reward and
leaves the whole Position unchanged; in particular last_staked_at keeps its
prior value and is not advanced to now. -/
theorem claim_zero_reward_is_noop (s : ProgState) (now : Nat) (mintOk : Bool)
    (h : s.entry.staked_amount ≠ 0)
    (h0 : (calculate_rewards s.entry.staked_amount s.entry.last_staked_at
            s.pool.reward_rate_per_sec now).1 = 0) :
    claim_rewards s now mintOk = (Except.ok 0, s) := by
  unfold claim_rewards
  dsimp only
  rw [if_neg h, if_pos h0]

/-- C2 amended witness: the concrete rate-0 instance of the no-op theorem. -/
theorem claim_zero_reward_is_noop_at_rate0 :
    claim_rewards ⟨⟨0, 1, 2, 0⟩, ⟨7, 5, 10⟩⟩ 20 true
      = (Except.ok 0, ⟨⟨0, 1, 2, 0⟩, ⟨7, 5, 10⟩⟩) :=
  claim_zero_reward_is_noop ⟨⟨0, 1, 2, 0⟩, ⟨7, 5, 10⟩⟩ 20 true (by decide) (by decide)

/-- C4: stake_sol is atomic on failure.  First part: whenever the handler
fails, at the mint step, the transfer step or the overflow-checked
addition, the returned state equals the input state, so staked_amount and
last_staked_at carry their old values with no partial update.  Second
part: when the new total would leave u64, the handler does fail, with the
abort of the unwrapped checked addition. -/
theorem stake_sol_atomic_on_failure :
    (∀ (s : ProgState) (user amount now : Nat) (mintOk transferOk : Bool) (e : Err),
        (stake_sol s user amount now mintOk transferOk).1 = Except.error e →
        (stake_sol s user amount now mintOk transferOk).2 = s) ∧
    (∀ (s : ProgState) (user amount now : Nat),
        2 ^ 64 ≤ s.entry.staked_amount + amount →
        (stake_sol s user amount now true true).1 = Except.error Err.addOverflowPanic) := by
  constructor
  · intro s user amount now mintOk transferOk e h
    unfold stake_sol at h ⊢
    dsimp only at h ⊢
    split at h
    · next hc => rw [if_pos hc]
    · next hc =>
      rw [if_neg hc]
      split at h
      · next ht => rw [if_pos ht]
      · next ht =>
        rw [if_neg ht]
        split at h
        · rfl
        · simp at h
  · intro s user amount now h
    have hadd : checked_add s.entry.staked_amount amount = none := by
      unfold checked_add
      rw [if_neg (Nat.not_lt.mpr h)]
    unfold stake_sol
    dsimp only
    rw [hadd]
    simp

/-- C4 witness: a failing transfer leaves the state untouched, and an
addition that would exceed u64 aborts. -/
theorem stake_sol_atomic_on_failure_at :
    (stake_sol ⟨⟨0, 1, 2, 3⟩, ⟨7, 40, 5⟩⟩ 7 10 6 true false).2 = ⟨⟨0, 1, 2, 3⟩, ⟨7, 40, 5⟩⟩ ∧
    (stake_sol ⟨⟨0, 1, 2, 3⟩, ⟨7, 2 ^ 64 - 1, 5⟩⟩ 7 1 6 true true).1
      = Except.error Err.addOverflowPanic :=
  ⟨stake_sol_atomic_on_failure.1 ⟨⟨0, 1, 2, 3⟩, ⟨7, 40, 5⟩⟩ 7 10 6 true false
      Err.transferFailed (by decide),
    stake_sol_atomic_on_failure.2 ⟨⟨0, 1, 2, 3⟩, ⟨7, 2 ^ 64 - 1, 5⟩⟩ 7 1 6 (by simp)⟩

/-- C5: stake gives no retroactive credit.  First part: every successful
stake issues exactly the reward settled on the staked_amount and
last_staked_at the Position held before the deposit was added.  Second
part, the concrete scenario of the spec: stake 100 at time 0 with rate 1,
then stake 50 at time 10; the second stake issues exactly 1000 reward
units and the Position then holds 150 staked from checkpoint 10 onward. -/
theorem stake_sol_no_retroactive_credit :
    (∀ (s : ProgState) (user amount now : Nat) (mintOk transferOk : Bool)
        (r : Nat) (t : ProgState),
        stake_sol s user amount now mintOk transferOk = (Except.ok r, t) →
        r = (calculate_rewards s.entry.staked_amount s.entry.last_staked_at
              s.pool.reward_rate_per_sec now).1) ∧
    (stake_sol (stake_sol ⟨⟨0, 1, 2, 1⟩, ⟨7, 0, 0⟩⟩ 7 100 0 true true).2 7 50 10 true true).1
      = Except.ok 1000 ∧
    (stake_sol (stake_sol ⟨⟨0, 1, 2, 1⟩, ⟨7, 0, 0⟩⟩ 7 100 0 true true).2 7 50 10 true true).2.entry
      = ⟨7, 150, 10⟩ := by
  refine ⟨?_, by decide, by decide⟩
  intro s user amount now mintOk transferOk r t h
  unfold stake_sol at h
  dsimp only at h
  split at h
  · simp at h
  · split at h
    · simp at h
    · split at h
      · simp at h
      · simp only [Prod.mk.injEq, Except.ok.injEq] at h
        exact h.1.symm

/-- C5 witness: a successful concrete stake issues the reward settled on
the pre-deposit balance. -/
theorem stake_sol_no_retroactive_credit_at :
    (5 : Nat) = (calculate_rewards 5 0 1 1).1 :=
  stake_sol_no_retroactive_credit.1 ⟨⟨0, 1, 2, 1⟩, ⟨7, 5, 0⟩⟩ 7 20 1 true true
    5 ⟨⟨0, 1, 2, 1⟩, ⟨7, 25, 1⟩⟩ (by decide)

/-- The accrual helper in its zero branch: no stake or a clock at or before
the checkpoint yields no reward and the supplied time as new checkpoint. -/
theorem calculate_rewards_zero_case (a b r n : Nat) (h : a = 0 ∨ n ≤ b) :
    calculate_rewards a b r n = (0, n) := by
  unfold calculate_rewards
  rw [if_pos h]

/-- claim_rewards on a zero staked balance fails and leaves the state alone. -/
theorem claim_rewards_zero_balance (s : ProgState) (now : Nat) (mintOk : Bool)
    (h : s.entry.staked_amount = 0) :
    claim_rewards s now mintOk = (Except.error Err.noStakedBalance, s) := by
  unfold claim_rewards
  dsimp only
  rw [if_pos h]

/-- unstake_sol on a zero staked balance fails and leaves the state alone. -/
theorem unstake_sol_zero_balance (s : ProgState) (lam now : Nat) (t : Bool)
    (h : s.entry.staked_amount = 0) :
    unstake_sol s lam now t = (Except.error Err.noStakedBalance, s) := by
  unfold unstake_sol
  dsimp only
  rw [if_pos h]

/-- claim_rewards with a positive balance and zero settled reward returns
early without touching the entry. -/
theorem claim_rewards_pending_zero (s : ProgState) (now : Nat) (mintOk : Bool)
    (h : s.entry.staked_amount ≠ 0)
    (h0 : (calculate_rewards s.entry.staked_amount s.entry.last_staked_at
            s.pool.reward_rate_per_sec now).1 = 0) :
    claim_rewards s now mintOk = (Except.ok 0, s) := by
  unfold claim_rewards
  dsimp only
  rw [if_neg h, if_pos h0]

/-- claim_rewards with a positive balance, a positive settled reward and a
succeeding mint issues the settled reward and moves the checkpoint to now. -/
theorem claim_rewards_pending_pos (s : ProgState) (now : Nat)
    (h : s.entry.staked_amount ≠ 0)
    (h0 : (calculate_rewards s.entry.staked_amount s.entry.last_staked_at
            s.pool.reward_rate_per_sec now).1 ≠ 0) :
    claim_rewards s now true
      = (Except.ok (calculate_rewards s.entry.staked_amount s.entry.last_staked_at
            s.pool.reward_rate_per_sec now).1,
         { s with entry := { s.entry with last_staked_at := now } }) := by
  unfold claim_rewards
  dsimp only
  rw [if_neg h, if_neg h0, if_neg (by simp), calculate_rewards_snd]

/-- C6: claim_rewards and unstake_sol invoked on a zero staked balance fail
with NoStakedBalance and change no state; and a successful unstake zeroes
staked_amount, sets last_staked_at to now, and makes every later claim or
unstake on that Position fail with NoStakedBalance without state change. -/
theorem unstake_zeroes_and_zero_balance_rejected :
    (∀ (s : ProgState) (now : Nat) (mintOk : Bool), s.entry.staked_amount = 0 →
        claim_rewards s now mintOk = (Except.error Err.noStakedBalance, s)) ∧
    (∀ (s : ProgState) (lam now : Nat) (t : Bool), s.entry.staked_amount = 0 →
        unstake_sol s lam now t = (Except.error Err.noStakedBalance, s)) ∧
    (∀ (s : ProgState) (lam now : Nat) (t : Bool) (r : Nat) (s2 : ProgState),
        unstake_sol s lam now t = (Except.ok r, s2) →
        s2.entry.staked_amount = 0 ∧ s2.entry.last_staked_at = now ∧
        (∀ (now2 : Nat) (m2 : Bool),
            claim_rewards s2 now2 m2 = (Except.error Err.noStakedBalance, s2)) ∧
        (∀ (lam2 now2 : Nat) (t2 : Bool),
            unstake_sol s2 lam2 now2 t2 = (Except.error Err.noStakedBalance, s2))) := by
  refine ⟨claim_rewards_zero_balance, unstake_sol_zero_balance, ?_⟩
  intro s lam now t r s2 h
  unfold unstake_sol at h
  dsimp only at h
  split at h
  · simp at h
  · split at h
    · simp at h
    · split at h
      · simp at h
      · simp only [Prod.mk.injEq, Except.ok.injEq] at h
        obtain ⟨h1, h2⟩ := h
        subst h2
        refine ⟨rfl, rfl, ?_, ?_⟩
        · intro now2 m2
          exact claim_rewards_zero_balance _ now2 m2 rfl
        · intro lam2 now2 t2
          exact unstake_sol_zero_balance _ lam2 now2 t2 rfl

/-- C6 witness: a concrete successful unstake, with the rejection of the
following claim and second unstake. -/
theorem unstake_zeroes_and_zero_balance_rejected_at :
    (unstake_sol ⟨⟨0, 1, 2, 3⟩, ⟨7, 40, 5⟩⟩ 50 9 true).2.entry.staked_amount = 0 ∧
    (unstake_sol ⟨⟨0, 1, 2, 3⟩, ⟨7, 40, 5⟩⟩ 50 9 true).2.entry.last_staked_at = 9 :=
  ⟨(unstake_zeroes_and_zero_balance_rejected.2.2 ⟨⟨0, 1, 2, 3⟩, ⟨7, 40, 5⟩⟩ 50 9 true
      40 ⟨⟨0, 1, 2, 3⟩, ⟨7, 0, 9⟩⟩ (by decide)).1,
    (unstake_zeroes_and_zero_balance_rejected.2.2 ⟨⟨0, 1, 2, 3⟩, ⟨7, 40, 5⟩⟩ 50 9 true
      40 ⟨⟨0, 1, 2, 3⟩, ⟨7, 0, 9⟩⟩ (by decide)).2.1⟩

/-- C7: claim is idempotent within one instant.  On any Position with a
positive staked balance and a succeeding mint, the first claim at now
issues exactly the settled reward, and a second claim at the same now
settles a zero reward, issues nothing and leaves the state of the first
claim unchanged. -/
theorem claim_rewards_idempotent_same_instant (s : ProgState) (now : Nat)
    (h : s.entry.staked_amount ≠ 0) :
    (claim_rewards s now true).1
        = Except.ok (calculate_rewards s.entry.staked_amount s.entry.last_staked_at
            s.pool.reward_rate_per_sec now).1 ∧
    claim_rewards (claim_rewards s now true).2 now true
        = (Except.ok 0, (claim_rewards s now true).2) := by
  by_cases hp : (calculate_rewards s.entry.staked_amount s.entry.last_staked_at
      s.pool.reward_rate_per_sec now).1 = 0
  · have h1 := claim_rewards_pending_zero s now true h hp
    constructor
    · rw [h1, hp]
    · rw [h1]
      exact claim_rewards_pending_zero s now true h hp
  · have h1 := claim_rewards_pending_pos s now h hp
    constructor
    · rw [h1]
    · rw [h1]
      dsimp only
      refine claim_rewards_pending_zero _ now true h ?_
      rw [calculate_rewards_zero_case _ _ _ _ (Or.inr (le_refl now))]

/-- C7 witness: a concrete double claim at the same instant. -/
theorem claim_rewards_idempotent_same_instant_at :
    (claim_rewards ⟨⟨0, 1, 2, 3⟩, ⟨7, 5, 0⟩⟩ 2 true).1
        = Except.ok (calculate_rewards 5 0 3 2).1 ∧
    claim_rewards (claim_rewards ⟨⟨0, 1, 2, 3⟩, ⟨7, 5, 0⟩⟩ 2 true).2 2 true
        = (Except.ok 0, (claim_rewards ⟨⟨0, 1, 2, 3⟩, ⟨7, 5, 0⟩⟩ 2 true).2) :=
  claim_rewards_idempotent_same_instant ⟨⟨0, 1, 2, 3⟩, ⟨7, 5, 0⟩⟩ 2 (by decide)

/-- One invocation of a handler on a Position, with its per-call arguments
and external-call oracles.  The supplied clock value is paired with the
operation in a trace. -/
inductive Op where
  | stake (user amount : Nat) (mintOk transferOk : Bool)
  | claim (mintOk : Bool)
  | unstake (lamports : Nat) (transferOk : Bool)
deriving DecidableEq, Repr

/-- The state a handler invocation leaves behind (a failed invocation
commits nothing). -/
def applyOp (s : ProgState) : Op → Nat → ProgState
  | Op.stake user amount mintOk transferOk, now =>
      (stake_sol s user amount now mintOk transferOk).2
  | Op.claim mintOk, now => (claim_rewards s now mintOk).2
  | Op.unstake lamports transferOk, now => (unstake_sol s lamports now transferOk).2

/-- The sequence of last_staked_at values a Position passes through while a
list of timed operations is applied, starting value included. -/
def checkpointTrace (s : ProgState) : List (Op × Nat) → List Nat
  | [] => [s.entry.last_staked_at]
  | (op, now) :: rest => s.entry.last_staked_at :: checkpointTrace (applyOp s op now) rest

/-- Every handler either leaves last_staked_at alone or sets it to the
supplied clock value. -/
theorem applyOp_last_cases (s : ProgState) (op : Op) (now : Nat) :
    (applyOp s op now).entry.last_staked_at = s.entry.last_staked_at ∨
    (applyOp s op now).entry.last_staked_at = now := by
  cases op with
  | stake user amount mintOk transferOk =>
    unfold applyOp stake_sol
    dsimp only
    split
    · exact Or.inl rfl
    · split
      · exact Or.inl rfl
      · split
        · exact Or.inl rfl
        · exact Or.inr (calculate_rewards_snd _ _ _ _)
  | claim mintOk =>
    unfold applyOp claim_rewards
    dsimp only
    split
    · exact Or.inl rfl
    · split
      · exact Or.inl rfl
      · split
        · exact Or.inl rfl
        · exact Or.inr (calculate_rewards_snd _ _ _ _)
  | unstake lamports transferOk =>
    unfold applyOp unstake_sol
    dsimp only
    split
    · exact Or.inl rfl
    · split
      · exact Or.inl rfl
      · split
        · exact Or.inl rfl
        · exact Or.inr rfl

/-- A checkpoint trace always starts with the current last_staked_at. -/
theorem checkpointTrace_head (s : ProgState) (ops : List (Op × Nat)) :
    (checkpointTrace s ops).head? = some s.entry.last_staked_at := by
  cases ops with
  | nil => rfl
  | cons p rest => rfl

/-- If the Position enters the trace with a checkpoint at or before the
first clock value and the clock values are non-decreasing, the checkpoint
trace is non-decreasing. -/
theorem checkpointTrace_chain :
    ∀ (ops : List (Op × Nat)) (s : ProgState),
      (∀ op now rest, ops = (op, now) :: rest → s.entry.last_staked_at ≤ now) →
      List.Chain' (fun p q : Op × Nat => p.2 ≤ q.2) ops →
      List.Chain' (· ≤ ·) (checkpointTrace s ops)
  | [], s, _, _ => by
    unfold checkpointTrace
    exact List.chain'_singleton _
  | (op, now) :: rest, s, hfirst, hchain => by
    have hnow : s.entry.last_staked_at ≤ now := hfirst op now rest rfl
    have hcases := applyOp_last_cases s op now
    have hle : (applyOp s op now).entry.last_staked_at ≤ now := by
      rcases hcases with hc | hc
      · rw [hc]; exact hnow
      · rw [hc]
    have hstep : s.entry.last_staked_at ≤ (applyOp s op now).entry.last_staked_at := by
      rcases hcases with hc | hc
      · rw [hc]
      · rw [hc]; exact hnow
    have hpair := List.chain'_cons'.mp hchain
    have htail := checkpointTrace_chain rest (applyOp s op now) ?_ hpair.2
    · unfold checkpointTrace
      refine List.chain'_cons'.mpr ⟨?_, htail⟩
      intro b hb
      rw [checkpointTrace_head] at hb
      cases hb
      exact hstep
    · intro op2 now2 rest2 hrest
      have h2 : now ≤ now2 := by
        have := hpair.1 (op2, now2)
        rw [hrest] at this
        exact this rfl
      exact Nat.le_trans hle h2

/-- C8: over the lifetime of a Position, created on first stake with a
zeroed entry, any sequence of stake, claim and unstake invocations whose
supplied clock values are non-decreasing produces a non-decreasing sequence
of last_staked_at values. -/
theorem last_checkpoint_monotone (pool : StakePool) (user : Nat)
    (ops : List (Op × Nat))
    (h : List.Chain' (fun p q : Op × Nat => p.2 ≤ q.2) ops) :
    List.Chain' (· ≤ ·) (checkpointTrace ⟨pool, ⟨user, 0, 0⟩⟩ ops) :=
  checkpointTrace_chain ops ⟨pool, ⟨user, 0, 0⟩⟩ (fun _ _ _ _ => Nat.zero_le _) h

/-- C8 witness: a concrete stake, claim, unstake trace at clock values
3, 5, 5. -/
theorem last_checkpoint_monotone_at :
    List.Chain' (fun p q : Op × Nat => p.2 ≤ q.2)
      [(Op.stake 7 100 true true, 3), (Op.claim true, 5), (Op.unstake 200 true, 5)] ∧
    List.Chain' (· ≤ ·) (checkpointTrace ⟨⟨0, 1, 2, 3⟩, ⟨7, 0, 0⟩⟩
      [(Op.stake 7 100 true true, 3), (Op.claim true, 5), (Op.unstake 200 true, 5)]) :=
  ⟨by simp, last_checkpoint_monotone ⟨0, 1, 2, 3⟩ 7 _ (by simp)⟩

/-- C9: none of the three participant-facing handlers mutates the Pool:
stake_sol, claim_rewards and unstake_sol all return the pool exactly as it
was, so every pool field, reward_rate_per_sec included, keeps the value
set at creation. -/
theorem pool_never_mutated (s : ProgState) (user amount now lam now2 now3 : Nat)
    (mintOk transferOk mintOk2 transferOk3 : Bool) :
    (stake_sol s user amount now mintOk transferOk).2.pool = s.pool ∧
    (claim_rewards s now2 mintOk2).2.pool = s.pool ∧
    (unstake_sol s lam now3 transferOk3).2.pool = s.pool := by
  refine ⟨?_, ?_, ?_⟩
  · unfold stake_sol
    dsimp only
    split
    · rfl
    · split
      · rfl
      · split <;> rfl
  · unfold claim_rewards
    dsimp only
    split
    · rfl
    · split
      · rfl
      · split <;> rfl
  · unfold unstake_sol
    dsimp only
    split
    · rfl
    · split
      · rfl
      · split <;> rfl

/-- C10: stake_sol has no amount > 0 guard.  Called with amount 0 and
succeeding external calls on a Position whose balance is a valid u64, it
succeeds, issues exactly the settled pending reward, sets last_staked_at
to now and leaves staked_amount unchanged. -/
theorem stake_sol_zero_amount (s : ProgState) (user now : Nat)
    (h : s.entry.staked_amount < 2 ^ 64) :
    stake_sol s user 0 now true true
      = (Except.ok (calculate_rewards s.entry.staked_amount s.entry.last_staked_at
            s.pool.reward_rate_per_sec now).1,
         { s with entry := ⟨user, s.entry.staked_amount, now⟩ }) := by
  have hadd : checked_add s.entry.staked_amount 0 = some s.entry.staked_amount := by
    unfold checked_add
    rw [if_pos (by simpa using h)]
    rw [Nat.add_zero]
  unfold stake_sol
  dsimp only
  rw [if_neg (by simp), if_neg (by simp), hadd, calculate_rewards_snd]

/-- C10 witness: a concrete zero-amount stake settles the pending reward
and only moves the checkpoint. -/
theorem stake_sol_zero_amount_at :
    stake_sol ⟨⟨0, 1, 2, 3⟩, ⟨9, 5, 0⟩⟩ 7 0 4 true true
      = (Except.ok (calculate_rewards 5 0 3 4).1, ⟨⟨0, 1, 2, 3⟩, ⟨7, 5, 4⟩⟩) :=
  stake_sol_zero_amount ⟨⟨0, 1, 2, 3⟩, ⟨9, 5, 0⟩⟩ 7 4 (by decide)

end Staking
